import Mathlib

/-!
Shallow embedding of the ADR emoji-sync engine
(src/skills/adr/scripts/adr-sync-emojis.ts, with the status extractor of
src/skills/adr/scripts/adr-report.ts), together with proofs of the spec's
testable properties.

The three status-extraction regexes of the source are deterministic once the
JavaScript backtracking semantics is unfolded: every `\s*`, `[^>]*`, `[^<]+`
and lazy `[\s\S]*?` piece is followed by a literal that pins down exactly one
split, so each pattern is embedded as a deterministic left-to-right scan, and
the whole-string `String.prototype.match` is the leftmost starting position
at which that scan succeeds.
-/

namespace AdrSkills

/-- JavaScript regex `\s` / `String.prototype.trim` whitespace
(ASCII subset; the markup in scope is ASCII). -/
def jsSpace (c : Char) : Bool :=
  c == ' ' || c == '\t' || c == '\n' || c == '\r' || c == '\x0b' || c == '\x0c'

/-- Greedy `\s*`: consume the maximal whitespace run. -/
def dropSpaces (l : List Char) : List Char :=
  l.dropWhile jsSpace

/-- Case-insensitive character comparison (the source regexes carry the `i` flag). -/
def ciEq (a b : Char) : Bool :=
  a.toLower == b.toLower

/-- Match a literal pattern case-insensitively at the head; return the rest. -/
def scanLitCI : List Char → List Char → Option (List Char)
  | [], rest => some rest
  | _ :: _, [] => none
  | p :: ps, c :: cs => if ciEq p c then scanLitCI ps cs else none

/-- Greedy `[^>]*>` : consume up to the first `>` and then the `>` itself. -/
def scanGt (s : List Char) : Option (List Char) :=
  match s.dropWhile (fun c => !(c == '>')) with
  | '>' :: r => some r
  | _ => none

/-- The literal prefix shared by all three status regexes:
`Status<\/span><\/strong><\/p><\/td>`. -/
def statusLabel : List Char := "Status</span></strong></p></td>".toList

def tdOpen : List Char := "<td".toList

def pOpen : List Char := "<p".toList

def pClose : List Char := "</p>".toList

def tdClose : List Char := "</td>".toList

def selfClose : List Char := "/>".toList

/-- The primary regex
`Status<\/span><\/strong><\/p><\/td>\s*<td[^>]*>\s*<p[^>]*>([^<]+)<\/p>`
tried at one start position; returns the captured group. -/
def primaryAt (s : List Char) : Option (List Char) :=
  match scanLitCI statusLabel s with
  | none => none
  | some r1 =>
    match scanLitCI tdOpen (dropSpaces r1) with
    | none => none
    | some r2 =>
      match scanGt r2 with
      | none => none
      | some r3 =>
        match scanLitCI pOpen (dropSpaces r3) with
        | none => none
        | some r4 =>
          match scanGt r4 with
          | none => none
          | some r5 =>
            let cap := r5.takeWhile (fun c => !(c == '<'))
            let rest := r5.dropWhile (fun c => !(c == '<'))
            if cap.isEmpty then none
            else
              match scanLitCI pClose rest with
              | none => none
              | some _ => some cap

/-- Leftmost match of the primary regex over the whole body. -/
def findPrimary : List Char → Option (List Char)
  | [] => primaryAt []
  | c :: rest =>
    match primaryAt (c :: rest) with
    | some cap => some cap
    | none => findPrimary rest

/-- The empty-status regex
`Status<\/span><\/strong><\/p><\/td>\s*<td[^>]*>\s*<p\s*\/>` at one position. -/
def emptyAt (s : List Char) : Bool :=
  match scanLitCI statusLabel s with
  | none => false
  | some r1 =>
    match scanLitCI tdOpen (dropSpaces r1) with
    | none => false
    | some r2 =>
      match scanGt r2 with
      | none => false
      | some r3 =>
        match scanLitCI pOpen (dropSpaces r3) with
        | none => false
        | some r4 => (scanLitCI selfClose (dropSpaces r4)).isSome

/-- Leftmost search for the empty-status regex. -/
def findEmpty : List Char → Bool
  | [] => emptyAt []
  | c :: rest => emptyAt (c :: rest) || findEmpty rest

/-- Lazy `([\s\S]*?)<\/td>` : capture everything up to the first
(case-insensitive) `</td>`. -/
def findCloseTd : List Char → Option (List Char)
  | [] => none
  | c :: rest =>
    match scanLitCI tdClose (c :: rest) with
    | some _ => some []
    | none =>
      match findCloseTd rest with
      | some cap => some (c :: cap)
      | none => none

/-- The fallback regex
`Status<\/span><\/strong><\/p><\/td>\s*<td[^>]*>([\s\S]*?)<\/td>` at one
position; returns the captured cell content. -/
def fallbackAt (s : List Char) : Option (List Char) :=
  match scanLitCI statusLabel s with
  | none => none
  | some r1 =>
    match scanLitCI tdOpen (dropSpaces r1) with
    | none => none
    | some r2 =>
      match scanGt r2 with
      | none => none
      | some r3 => findCloseTd r3

/-- Leftmost match of the fallback regex over the whole body. -/
def findFallback : List Char → Option (List Char)
  | [] => fallbackAt []
  | c :: rest =>
    match fallbackAt (c :: rest) with
    | some cap => some cap
    | none => findFallback rest

/-- After a `<`, drop through the first subsequent `>` (one `<[^>]*>` match). -/
def splitAfterGt : List Char → Option (List Char)
  | [] => none
  | c :: rest => if c == '>' then some rest else splitAfterGt rest

/-- Fuelled worker for the global replace `.replace(/<[^>]*>/g, "")`. -/
def stripTagsF : Nat → List Char → List Char
  | 0, l => l
  | Nat.succ _, [] => []
  | Nat.succ f, c :: rest =>
    if c == '<' then
      match splitAfterGt rest with
      | some rest' => stripTagsF f rest'
      | none => c :: stripTagsF f rest
    else c :: stripTagsF f rest

/-- `.replace(/<[^>]*>/g, "")` : delete every `<...>` tag. -/
def stripTags (l : List Char) : List Char :=
  stripTagsF l.length l

/-- `String.prototype.trim`. -/
def trimJS (s : String) : String :=
  (((s.toList.dropWhile jsSpace).reverse.dropWhile jsSpace).reverse).asString

/-- `extractStatus` of adr-sync-emojis.ts: primary pattern, then the
empty-status pattern (resolving to null), then the fallback pattern with
tags stripped, else null. -/
def extractStatusSync (body : String) : Option String :=
  let cs := body.toList
  match findPrimary cs with
  | some cap => some (trimJS cap.asString)
  | none =>
    if findEmpty cs then none
    else
      match findFallback cs with
      | some inner =>
        let text := trimJS (stripTags inner).asString
        if text == "" then none else some text
      | none => none

/-- `extractStatus` of adr-report.ts: identical tiers, but the empty-status
pattern and the no-match case resolve to the string "Unknown". -/
def extractStatusReport (body : String) : String :=
  let cs := body.toList
  match findPrimary cs with
  | some cap => trimJS cap.asString
  | none =>
    if findEmpty cs then "Unknown"
    else
      match findFallback cs with
      | some inner =>
        let text := trimJS (stripTags inner).asString
        if text == "" then "Unknown" else text
      | none => "Unknown"

/-- `String.prototype.toLowerCase` (ASCII case folding). -/
def jsToLower (s : String) : String :=
  (s.toList.map Char.toLower).asString

/-- The own data properties of the `STATUS_EMOJI_MAP` object literal:
normalized status to hex code point.  This is the typed-table reading of the
lookup; the source's bracket access `STATUS_EMOJI_MAP[k]` additionally
consults the prototype chain — `statusEmojiMapJS` below models that full
semantics, and `statusEmojiMapJS_agrees` proves this table is its faithful
restriction to every key that is not a member name of `Object.prototype`. -/
def statusEmojiMap (k : String) : Option String :=
  if k == "accepted" then some "2705"
  else if k == "approved" then some "2705"
  else if k == "proposal" then some "23f3"
  else if k == "proposed" then some "23f3"
  else if k == "pending approval" then some "23f3"
  else if k == "draft" then some "1f5d2"
  else if k == "planning" then some "1f5d2"
  else if k == "withdrawn" then some "1f6ab"
  else if k == "rejected" then some "1f6ab"
  else if k == "postponed" then some "270b"
  else none

/-- The keys of `STATUS_EMOJI_MAP`. -/
def emojiKeys : List String :=
  ["accepted", "approved", "proposal", "proposed", "pending approval",
   "draft", "planning", "withdrawn", "rejected", "postponed"]

/-- `getEmojiCodePoint`: `STATUS_EMOJI_MAP[status.toLowerCase().trim()] || null`,
under the typed-table reading of the lookup (see `statusEmojiMap`); the
`|| null` is absorbed because every own entry is a nonempty (truthy) string.
`getEmojiCodePointJS` below models the full lookup, under which normalized
statuses naming `Object.prototype` members return truthy inherited values
instead of null. -/
def getEmojiCodePoint (status : String) : Option String :=
  statusEmojiMap (trimJS (jsToLower status))

/-- Hex digit value (as used by `parseInt(hex, 16)`). -/
def hexDigitVal (c : Char) : Nat :=
  if c.isDigit then c.toNat - '0'.toNat
  else if 'a' ≤ c && c ≤ 'f' then c.toNat - 'a'.toNat + 10
  else if 'A' ≤ c && c ≤ 'F' then c.toNat - 'A'.toNat + 10
  else 0

/-- `parseInt(hex, 16)` on a plain hex string. -/
def hexToNat (s : String) : Nat :=
  s.toList.foldl (fun n c => n * 16 + hexDigitVal c) 0

/-- `codePointToEmoji`: `String.fromCodePoint(parseInt(hex, 16))`. -/
def codePointToEmoji (hex : String) : String :=
  String.singleton (Char.ofNat (hexToNat hex))

/-- `/ADR-\d+/.test(title)` : the title contains `ADR-` followed by a digit. -/
def hasAdrNumL : List Char → Bool
  | [] => false
  | c :: rest =>
    (match c :: rest with
     | 'A' :: 'D' :: 'R' :: '-' :: d :: _ => d.isDigit
     | _ => false) || hasAdrNumL rest

/-- Case-insensitive substring test (`/pat/i.test(s)` for a literal pattern). -/
def containsCIL (pat : List Char) : List Char → Bool
  | [] => (scanLitCI pat []).isSome
  | c :: rest => (scanLitCI pat (c :: rest)).isSome || containsCIL pat rest

/-- `isAdrPage`: title matches `/ADR-\d+/` and matches neither `/Reserved/i`
nor `/Design Review/i`. -/
def isAdrPage (title : String) : Bool :=
  hasAdrNumL title.toList &&
  !containsCIL "Reserved".toList title.toList &&
  !containsCIL "Design Review".toList title.toList

/-! ### Remote property model

`upsertProperty` talks to the store through four endpoint calls (property
list, create, detail, update).  The remote is modelled per property slot as
the stored record (if any) plus one success bit per endpoint call; a
non-success response leaves the store unchanged.  Issued calls are recorded
so that "no write call" claims are statements about the call trace. -/

/-- A content property as stored remotely: id, value, version counter.
On create the server assigns version 1 (the id is modelled as the key). -/
structure StoredProp where
  id : String
  value : Option String
  version : Option Nat
deriving Repr, DecidableEq

/-- Whether each remote endpoint call would answer with a success response. -/
structure CallOutcomes where
  listOk : Bool
  createOk : Bool
  detailOk : Bool
  updateOk : Bool
deriving Repr, DecidableEq

/-- One remote property slot: its transport behaviour and its stored record. -/
structure PropSlot where
  calls : CallOutcomes
  store : Option StoredProp
deriving Repr, DecidableEq

/-- A remote endpoint call issued by the engine. -/
inductive RemoteCall where
  | list (key : String)
  | create (key value : String)
  | detail (id : String)
  | update (id key value : String) (version : Nat)
deriving Repr, DecidableEq

/-- JavaScript `String(x)` on an optional value (`String(undefined)`). -/
def jsString : Option String → String
  | none => "undefined"
  | some s => s

/-- `upsertProperty(pageId, key, value)` of adr-sync-emojis.ts against one
property slot.  Returns (success, issued calls, resulting slot):
list fails → false; not found → create; value already matches → true with
no write; fetch detail for the version; falsy version → false; otherwise
update with `version + 1`. -/
def upsertProp (slot : PropSlot) (key value : String) :
    Bool × List RemoteCall × PropSlot :=
  let lc := RemoteCall.list key
  if !slot.calls.listOk then (false, [lc], slot)
  else
    match slot.store with
    | none =>
      let cr := RemoteCall.create key value
      if slot.calls.createOk then
        (true, [lc, cr],
         { slot with store := some ⟨key, some value, some 1⟩ })
      else (false, [lc, cr], slot)
    | some p =>
      if jsString p.value == value then (true, [lc], slot)
      else
        let dt := RemoteCall.detail p.id
        if !slot.calls.detailOk then (false, [lc, dt], slot)
        else
          let v := p.version.getD 0
          if v == 0 then (false, [lc, dt], slot)
          else
            let up := RemoteCall.update p.id key value (v + 1)
            if slot.calls.updateOk then
              (true, [lc, dt, up],
               { slot with store := some { p with value := some value,
                                                  version := some (v + 1) } })
            else (false, [lc, dt, up], slot)

/-! ### Orchestrator model -/

/-- A collected document: id, title, optional markup body
(`page.body?.storage?.value`). -/
structure Page where
  id : String
  title : String
  body : Option String
deriving Repr, DecidableEq

/-- Per-document classification, mirroring the distinct log lines of the
sync loop (`oneFailed` is the "Partial update" line). -/
inductive Outcome where
  | updated (emoji status : String)
  | skippedNoStatus
  | skippedNonStandard (status : String)
  | oneFailed (ok1 ok2 : Bool)
  | failed
deriving Repr, DecidableEq

/-- The tally counters declared by `syncEmojis`. -/
structure Tally where
  updated : Nat
  skipped : Nat
  unchanged : Nat
  errors : Nat
deriving Repr, DecidableEq

/-- The counter increment each classification performs in the loop:
both-ok and dry-run increment `updated`, both skip cases increment
`skipped`, the partial-update and both-failed cases increment `errors`.
No branch increments `unchanged`. -/
def tallyAdd (o : Outcome) (t : Tally) : Tally :=
  match o with
  | .updated _ _ => { t with updated := t.updated + 1 }
  | .skippedNoStatus => { t with skipped := t.skipped + 1 }
  | .skippedNonStandard _ => { t with skipped := t.skipped + 1 }
  | .oneFailed _ _ => { t with errors := t.errors + 1 }
  | .failed => { t with errors := t.errors + 1 }

def pubKey : String := "emoji-title-published"

def drKey : String := "emoji-title-draft"

/-- Result of processing one document: classification, issued calls, and
the two property slots afterwards. -/
structure ProcResult where
  outcome : Outcome
  calls : List RemoteCall
  pub : PropSlot
  dr : PropSlot
deriving Repr, DecidableEq

/-- The body of the per-page loop of `syncEmojis`: extract the status
(JS-falsy, i.e. null or empty, → skip), map it to an emoji code (none →
skip), then either report under dry-run or reconcile both properties and
classify by the two success bits. -/
def processPage (dryRun : Bool) (pub dr : PropSlot) (page : Page) :
    ProcResult :=
  let body := page.body.getD ""
  let status := extractStatusSync body
  if status.getD "" == "" then ⟨.skippedNoStatus, [], pub, dr⟩
  else
    let s := status.getD ""
    match getEmojiCodePoint s with
    | none => ⟨.skippedNonStandard s, [], pub, dr⟩
    | some emojiCode =>
      let emoji := codePointToEmoji emojiCode
      if dryRun then ⟨.updated emoji s, [], pub, dr⟩
      else
        let r1 := upsertProp pub pubKey emojiCode
        let r2 := upsertProp dr drKey emojiCode
        let outc :=
          if r1.1 && r2.1 then Outcome.updated emoji s
          else if r1.1 || r2.1 then Outcome.oneFailed r1.1 r2.1
          else Outcome.failed
        ⟨outc, r1.2.1 ++ r2.2.1, r1.2.2, r2.2.2⟩

/-- The (status, emoji code) pair the per-page pipeline computes before any
store call, shared by the dry-run and the reconciling branch. -/
def pageIndicator (page : Page) : Option (String × String) :=
  let status := extractStatusSync (page.body.getD "")
  if status.getD "" == "" then none
  else
    match getEmojiCodePoint (status.getD "") with
    | none => none
    | some ec => some (status.getD "", ec)

/-- One document together with the remote state of its two emoji
properties. -/
structure PageEnv where
  page : Page
  pub : PropSlot
  dr : PropSlot
deriving Repr, DecidableEq

/-- Result of a whole run: final tally, all issued property calls, and the
per-document environments afterwards. -/
structure RunResult where
  tally : Tally
  calls : List RemoteCall
  envs : List PageEnv
deriving Repr, DecidableEq

/-- The per-page loop of `syncEmojis` over the filtered document list. -/
def runSync (dryRun : Bool) : List PageEnv → RunResult
  | [] => ⟨⟨0, 0, 0, 0⟩, [], []⟩
  | e :: rest =>
    let r := processPage dryRun e.pub e.dr e.page
    let rr := runSync dryRun rest
    ⟨tallyAdd r.outcome rr.tally, r.calls ++ rr.calls,
     ⟨e.page, r.pub, r.dr⟩ :: rr.envs⟩

/-- `allPages.filter((p) => isAdrPage(p.title))`. -/
def adrFilter (envs : List PageEnv) : List PageEnv :=
  envs.filter (fun e => isAdrPage e.page.title)

/-- One paginated search response of the collector loop. -/
structure Batch where
  ok : Bool
  error : Option String
  results : List PageEnv
  hasNext : Bool
deriving Repr, DecidableEq

/-- The collector loop: consume search responses in order; a non-success
response is fatal (`exitWithError(response.error || "Failed to search
Confluence")`); otherwise accumulate results until no next link.  An
exhausted environment (the loop would issue a request with no modelled
response) is a modelling artefact reported as an error. -/
def collect : List Batch → Except String (List PageEnv)
  | [] => .error "no further search response"
  | b :: rest =>
    if !b.ok then .error (b.error.getD "Failed to search Confluence")
    else if b.hasNext then
      match collect rest with
      | .error e => .error e
      | .ok ps => .ok (b.results ++ ps)
    else .ok b.results

/-- `syncEmojis`: collect all pages (fatal on any collector failure),
filter to ADR pages, then run the per-page loop. -/
def syncEmojis (dryRun : Bool) (batches : List Batch) :
    Except String RunResult :=
  match collect batches with
  | .error e => .error e
  | .ok envs => .ok (runSync dryRun (adrFilter envs))

/-! ### The full JavaScript lookup semantics of `STATUS_EMOJI_MAP[k]`

`STATUS_EMOJI_MAP` is a plain object literal, so the source's bracket lookup
falls through to `Object.prototype` when no own entry matches: a normalized
status such as "constructor" or "toString" yields the truthy inherited
member (a function, or `Object.prototype` itself for the `__proto__`
accessor), which survives the `|| null` fallback.  The definitions below
model the lookup and the per-page loop at that fidelity; the engine model
above is its restriction to statuses that are not `Object.prototype` member
names (`statusEmojiMapJS_agrees`). -/

/-- A value the bracket lookup can produce: an own hex entry, an inherited
function member of `Object.prototype`, or `Object.prototype` itself (the
result of the inherited `__proto__` accessor). -/
inductive JsLookup where
  | hex (s : String)
  | protoFn (name : String)
  | protoObj
deriving Repr, DecidableEq

/-- The function-valued member names of `Object.prototype` in Node (the
runtime executing these scripts), all reachable by a bracket lookup on a
plain object literal. -/
def objectProtoFnKeys : List String :=
  ["constructor", "hasOwnProperty", "isPrototypeOf", "propertyIsEnumerable",
   "toLocaleString", "toString", "valueOf",
   "__defineGetter__", "__defineSetter__", "__lookupGetter__",
   "__lookupSetter__"]

/-- `STATUS_EMOJI_MAP[k]` in full: an own data property wins; otherwise the
lookup continues along the prototype chain to `Object.prototype`; only when
that also misses is the result undefined.  Every value produced by the first
two cases is truthy, so the `|| null` in `getEmojiCodePoint` nulls only the
undefined case. -/
def statusEmojiMapJS (k : String) : Option JsLookup :=
  match statusEmojiMap k with
  | some v => some (JsLookup.hex v)
  | none =>
    if objectProtoFnKeys.contains k then some (JsLookup.protoFn k)
    else if k == "__proto__" then some JsLookup.protoObj
    else none

/-- `getEmojiCodePoint` with the unrestricted lookup semantics:
`STATUS_EMOJI_MAP[status.toLowerCase().trim()] || null`. -/
def getEmojiCodePointJS (status : String) : Option JsLookup :=
  statusEmojiMapJS (trimJS (jsToLower status))

/-- JavaScript `String(v)` on a lookup result.  A native function prints as
`function name() { [native code] }` (the inherited `constructor` is the
`Object` function, whose name is Object); `Object.prototype` prints as
`[object Object]`.  Only the leading characters matter downstream: `parseInt`
with radix 16 reads the maximal hex prefix. -/
def jsStringOfLookup : JsLookup → String
  | .hex s => s
  | .protoFn n =>
      "function " ++ (if n == "constructor" then "Object" else n) ++
        "() \x7b [native code] \x7d"
  | .protoObj => "[object Object]"

def isHexDigitJS (c : Char) : Bool :=
  c.isDigit || ('a' ≤ c && c ≤ 'f') || ('A' ≤ c && c ≤ 'F')

/-- `parseInt(s, 16)`: skip leading whitespace, optional sign, optional
0x/0X prefix, then the longest prefix of hex digits; no digit means NaN,
modelled as `none`. -/
def parseIntHexJS (s : String) : Option Int :=
  let l := s.toList.dropWhile jsSpace
  let (neg, l2) := match l with
    | '-' :: r => (true, r)
    | '+' :: r => (false, r)
    | _ => (false, l)
  let l3 := match l2 with
    | '0' :: 'x' :: r => r
    | '0' :: 'X' :: r => r
    | _ => l2
  let ds := l3.takeWhile isHexDigitJS
  if ds.isEmpty then none
  else
    let n : Nat := ds.foldl (fun n c => n * 16 + hexDigitVal c) 0
    some (if neg then -(n : Int) else (n : Int))

/-- `codePointToEmoji` applied to a raw lookup value:
`String.fromCodePoint(parseInt(String(v), 16))`.  `String.fromCodePoint`
throws a RangeError unless its argument is an integer in [0, 0x10FFFF];
`none` models the throw, which aborts the whole run.  (For the values
reachable here — the five table code points and 0xF from the `function`
prefix — the scalar-value caveat of surrogates never arises.) -/
def codePointToEmojiJS (v : JsLookup) : Option String :=
  match parseIntHexJS (jsStringOfLookup v) with
  | none => none
  | some n =>
      if 0 ≤ n ∧ n ≤ 1114111 then
        some (String.singleton (Char.ofNat n.toNat))
      else none

/-- A stored property in the refined model: the value recorded is what the
create/update call carried. -/
structure StoredPropJS where
  id : String
  value : Option JsLookup
  version : Option Nat
deriving Repr, DecidableEq

structure PropSlotJS where
  calls : CallOutcomes
  store : Option StoredPropJS
deriving Repr, DecidableEq

inductive RemoteCallJS where
  | list (key : String)
  | create (key : String) (value : JsLookup)
  | detail (id : String)
  | update (id key : String) (value : JsLookup) (version : Nat)
deriving Repr, DecidableEq

/-- `String(existing.value) === value`: the left side is always a string, so
the strict equality can only succeed when the target value is itself a
string (an own hex entry); an inherited function or object is never strictly
equal to any string. -/
def jsStrictEqStr (stored : Option JsLookup) (v : JsLookup) : Bool :=
  match v with
  | .hex s =>
      (match stored with
       | none => "undefined"
       | some sv => jsStringOfLookup sv) == s
  | _ => false

/-- `upsertProperty` with the raw looked-up value threaded through, same
protocol as `upsertProp`. -/
def upsertPropJS (slot : PropSlotJS) (key : String) (value : JsLookup) :
    Bool × List RemoteCallJS × PropSlotJS :=
  let lc := RemoteCallJS.list key
  if !slot.calls.listOk then (false, [lc], slot)
  else
    match slot.store with
    | none =>
      let cr := RemoteCallJS.create key value
      if slot.calls.createOk then
        (true, [lc, cr],
         { slot with store := some ⟨key, some value, some 1⟩ })
      else (false, [lc, cr], slot)
    | some p =>
      if jsStrictEqStr p.value value then (true, [lc], slot)
      else
        let dt := RemoteCallJS.detail p.id
        if !slot.calls.detailOk then (false, [lc, dt], slot)
        else
          let v := p.version.getD 0
          if v == 0 then (false, [lc, dt], slot)
          else
            let up := RemoteCallJS.update p.id key value (v + 1)
            if slot.calls.updateOk then
              (true, [lc, dt, up],
               { slot with store := some { p with value := some value,
                                                  version := some (v + 1) } })
            else (false, [lc, dt, up], slot)

/-- Per-document classification in the refined model; `crashed` is the
unhandled RangeError thrown by `String.fromCodePoint`, which aborts the
run before any property call for that document. -/
inductive OutcomeJS where
  | updated (emoji status : String)
  | skippedNoStatus
  | skippedNonStandard (status : String)
  | oneFailed (ok1 ok2 : Bool)
  | failed
  | crashed (status : String)
deriving Repr, DecidableEq

structure ProcResultJS where
  outcome : OutcomeJS
  calls : List RemoteCallJS
  pub : PropSlotJS
  dr : PropSlotJS
deriving Repr, DecidableEq

/-- The per-page loop body under the full lookup semantics: the skip guard
`if (!emojiCode)` passes any truthy lookup result through, `codePointToEmoji`
runs before the dry-run check, and the raw looked-up value is what the two
property reconciliations carry. -/
def processPageJS (dryRun : Bool) (pub dr : PropSlotJS) (page : Page) :
    ProcResultJS :=
  let body := page.body.getD ""
  let status := extractStatusSync body
  if status.getD "" == "" then ⟨.skippedNoStatus, [], pub, dr⟩
  else
    let s := status.getD ""
    match getEmojiCodePointJS s with
    | none => ⟨.skippedNonStandard s, [], pub, dr⟩
    | some hit =>
      match codePointToEmojiJS hit with
      | none => ⟨.crashed s, [], pub, dr⟩
      | some emoji =>
        if dryRun then ⟨.updated emoji s, [], pub, dr⟩
        else
          let r1 := upsertPropJS pub pubKey hit
          let r2 := upsertPropJS dr drKey hit
          let outc :=
            if r1.1 && r2.1 then OutcomeJS.updated emoji s
            else if r1.1 || r2.1 then OutcomeJS.oneFailed r1.1 r2.1
            else OutcomeJS.failed
          ⟨outc, r1.2.1 ++ r2.2.1, r1.2.2, r2.2.2⟩

/-! ### Concrete fixtures used by counterexamples and witnesses -/

def allOkCalls : CallOutcomes := ⟨true, true, true, true⟩

/-- Transport in which the create endpoint answers with a failure. -/
def createFailCalls : CallOutcomes := ⟨true, false, true, true⟩

/-- Markup whose value cell reads `Draft` (matches the primary pattern). -/
def exPrimaryBody : String :=
  "Status</span></strong></p></td><td><p>Draft</p></td>"

/-- Markup whose value cell is a self-closing empty paragraph. -/
def exEmptyBody : String :=
  "Status</span></strong></p></td><td><p /></td>"

/-- Markup whose value cell hides the status inside an inline tag, so only
the fallback pattern matches. -/
def exFallbackBody : String :=
  "Status</span></strong></p></td><td><p><em>Proposed</em></p></td>"

/-- Markup with an unrecognized status. -/
def exOnboardingBody : String :=
  "Status</span></strong></p></td><td><p>Onboarding</p></td>"

def exPage : Page := ⟨"31860000001", "ADR-003: Use X", some exPrimaryBody⟩

def exPageOnboarding : Page :=
  ⟨"31860000002", "ADR-009: Onboarding Flow", some exOnboardingBody⟩

def exPageReserved : Page := ⟨"31860000003", "ADR-004: Reserved Range", none⟩

/-- Fresh slot: no stored property, all calls succeed. -/
def exSlotOk : PropSlot := ⟨allOkCalls, none⟩

/-- Fresh slot whose create call fails. -/
def exSlotCreateFail : PropSlot := ⟨createFailCalls, none⟩

/-- Slot holding value 2705 at version 3, all calls succeed. -/
def exSlotDiff : PropSlot := ⟨allOkCalls, some ⟨"p1", some "2705", some 3⟩⟩

/-- Slot holding a property whose version counter is 0. -/
def exSlotV0 : PropSlot := ⟨allOkCalls, some ⟨"p1", some "2705", some 0⟩⟩

/-- Published call succeeds, draft create fails: the partial-update case. -/
def exEnvPartial : PageEnv := ⟨exPage, exSlotOk, exSlotCreateFail⟩

/-- Published create fails, draft succeeds: the mirrored partial case. -/
def exEnvPartialSwap : PageEnv := ⟨exPage, exSlotCreateFail, exSlotOk⟩

/-- Both property calls fail. -/
def exEnvBothFail : PageEnv := ⟨exPage, exSlotCreateFail, exSlotCreateFail⟩

def exEnvReserved : PageEnv := ⟨exPageReserved, exSlotOk, exSlotOk⟩

/-- Markup whose value cell reads `Constructor`: no canonical mapping, but
its normalized form names an `Object.prototype` member. -/
def exConstructorBody : String :=
  "Status</span></strong></p></td><td><p>Constructor</p></td>"

/-- Markup whose value cell reads `__proto__`. -/
def exProtoBody : String :=
  "Status</span></strong></p></td><td><p>__proto__</p></td>"

def exPageConstructor : Page :=
  ⟨"31860000004", "ADR-011: Pick a DI Container", some exConstructorBody⟩

def exPageProto : Page :=
  ⟨"31860000005", "ADR-012: Prototype Chains", some exProtoBody⟩

/-- Fresh refined slot: no stored property, all calls succeed. -/
def exSlotOkJS : PropSlotJS := ⟨allOkCalls, none⟩

/-- A failing collector response carrying an error message. -/
def exBadBatch : Batch := ⟨false, some "boom", [], false⟩

/-- A successful final collector response containing one document whose
property calls will both fail. -/
def exGoodBatchFail : Batch := ⟨true, none, [exEnvBothFail], false⟩

/-! ### Helper lemmas -/

theorem upsert_noop {slot : PropSlot} {k v : String} {p : StoredProp}
    (hl : slot.calls.listOk = true) (hst : slot.store = some p)
    (hv : jsString p.value = v) :
    upsertProp slot k v = (true, [RemoteCall.list k], slot) := by
  simp [upsertProp, hl, hst, hv]

theorem processPage_reconcile {pub dr : PropSlot} {page : Page} {s ec : String}
    (h1 : extractStatusSync (page.body.getD "") = some s)
    (hs : (s == "") = false)
    (hec : getEmojiCodePoint s = some ec) :
    processPage false pub dr page =
      ⟨(if (upsertProp pub pubKey ec).1 && (upsertProp dr drKey ec).1 then
          Outcome.updated (codePointToEmoji ec) s
        else if (upsertProp pub pubKey ec).1 || (upsertProp dr drKey ec).1 then
          Outcome.oneFailed (upsertProp pub pubKey ec).1
            (upsertProp dr drKey ec).1
        else Outcome.failed),
        (upsertProp pub pubKey ec).2.1 ++ (upsertProp dr drKey ec).2.1,
        (upsertProp pub pubKey ec).2.2, (upsertProp dr drKey ec).2.2⟩ := by
  simp [processPage, h1, hs, hec]

theorem processPage_dry {pub dr : PropSlot} {page : Page} {s ec : String}
    (h1 : extractStatusSync (page.body.getD "") = some s)
    (hs : (s == "") = false)
    (hec : getEmojiCodePoint s = some ec) :
    processPage true pub dr page =
      ⟨Outcome.updated (codePointToEmoji ec) s, [], pub, dr⟩ := by
  simp [processPage, h1, hs, hec]

theorem processPage_noStatus {d : Bool} {pub dr : PropSlot} {page : Page}
    (h : (extractStatusSync (page.body.getD "")).getD "" = "") :
    processPage d pub dr page = ⟨Outcome.skippedNoStatus, [], pub, dr⟩ := by
  simp [processPage, h]

theorem processPage_nonStd {d : Bool} {pub dr : PropSlot} {page : Page}
    {s : String}
    (h1 : extractStatusSync (page.body.getD "") = some s)
    (hs : (s == "") = false)
    (hn : getEmojiCodePoint s = none) :
    processPage d pub dr page = ⟨Outcome.skippedNonStandard s, [], pub, dr⟩ := by
  simp [processPage, h1, hs, hn]

theorem pageIndicator_some_iff {page : Page} {s ec : String} :
    pageIndicator page = some (s, ec) ↔
      extractStatusSync (page.body.getD "") = some s ∧ (s == "") = false ∧
      getEmojiCodePoint s = some ec := by
  constructor
  · intro h
    cases h1 : extractStatusSync (page.body.getD "") with
    | none => simp [pageIndicator, h1] at h
    | some s0 =>
      cases hs0 : s0 == "" with
      | true => simp [pageIndicator, h1, hs0] at h
      | false =>
        cases hec : getEmojiCodePoint s0 with
        | none => simp [pageIndicator, h1, hs0, hec] at h
        | some ec0 =>
          simp [pageIndicator, h1, hs0, hec] at h
          obtain ⟨rfl, rfl⟩ := h
          exact ⟨rfl, hs0, hec⟩
  · rintro ⟨h1, hs, hec⟩
    simp [pageIndicator, h1, hs, hec]

theorem pageIndicator_none_inv {page : Page}
    (h : pageIndicator page = none) :
    (extractStatusSync (page.body.getD "")).getD "" = "" ∨
    ∃ s, extractStatusSync (page.body.getD "") = some s ∧ (s == "") = false ∧
      getEmojiCodePoint s = none := by
  cases h1 : extractStatusSync (page.body.getD "") with
  | none => exact Or.inl (by simp [h1])
  | some s0 =>
    cases hs0 : s0 == "" with
    | true => exact Or.inl (by simp [h1, eq_of_beq hs0])
    | false =>
      cases hec : getEmojiCodePoint s0 with
      | none => exact Or.inr ⟨s0, rfl, hs0, hec⟩
      | some ec0 => simp [pageIndicator, h1, hs0, hec] at h

theorem processPage_updated_inv {pub dr : PropSlot} {page : Page}
    {e s : String}
    (h : (processPage false pub dr page).outcome = Outcome.updated e s) :
    ∃ ec, extractStatusSync (page.body.getD "") = some s ∧
      (s == "") = false ∧ getEmojiCodePoint s = some ec ∧
      e = codePointToEmoji ec ∧
      (upsertProp pub pubKey ec).1 = true ∧
      (upsertProp dr drKey ec).1 = true ∧
      (processPage false pub dr page).pub = (upsertProp pub pubKey ec).2.2 ∧
      (processPage false pub dr page).dr = (upsertProp dr drKey ec).2.2 := by
  cases h1 : extractStatusSync (page.body.getD "") with
  | none =>
    rw [processPage_noStatus (by simp [h1])] at h
    exact absurd h (by simp)
  | some s0 =>
    cases hs0 : s0 == "" with
    | true =>
      rw [processPage_noStatus (by simp [h1, eq_of_beq hs0])] at h
      exact absurd h (by simp)
    | false =>
      cases hec : getEmojiCodePoint s0 with
      | none =>
        rw [processPage_nonStd h1 hs0 hec] at h
        exact absurd h (by simp)
      | some ec0 =>
        rw [processPage_reconcile h1 hs0 hec] at h
        cases hb1 : (upsertProp pub pubKey ec0).1 with
        | false =>
          cases hb2 : (upsertProp dr drKey ec0).1 with
          | false => simp [hb1, hb2] at h
          | true => simp [hb1, hb2] at h
        | true =>
          cases hb2 : (upsertProp dr drKey ec0).1 with
          | false => simp [hb1, hb2] at h
          | true =>
            simp [hb1, hb2] at h
            obtain ⟨he, hs⟩ := h
            subst he
            subst hs
            exact ⟨ec0, rfl, hs0, hec, rfl, hb1, hb2, by
              rw [processPage_reconcile h1 hs0 hec], by
              rw [processPage_reconcile h1 hs0 hec]⟩

theorem primaryAt_no_lt {s cap : List Char} (h : primaryAt s = some cap) :
    ∀ c ∈ cap, ¬(c = '<') := by
  simp only [primaryAt] at h
  repeat' split at h
  all_goals first
    | exact Option.noConfusion h
    | (injection h with h
       subst h
       intro c hc
       have hm := List.mem_takeWhile_imp hc
       simp at hm
       exact hm)

theorem findPrimary_no_lt (l : List Char) {cap : List Char}
    (h : findPrimary l = some cap) : ∀ c ∈ cap, ¬(c = '<') := by
  induction l with
  | nil => exact primaryAt_no_lt (by simpa [findPrimary] using h)
  | cons a rest ih =>
    simp only [findPrimary] at h
    cases hp : primaryAt (a :: rest) with
    | some k =>
      rw [hp] at h
      injection h with h
      subst h
      exact primaryAt_no_lt hp
    | none =>
      rw [hp] at h
      exact ih h

theorem processPage_dry_inert (pub dr : PropSlot) (page : Page) :
    (processPage true pub dr page).calls = [] ∧
    (processPage true pub dr page).pub = pub ∧
    (processPage true pub dr page).dr = dr := by
  cases h1 : extractStatusSync (page.body.getD "") with
  | none =>
    rw [processPage_noStatus (by simp [h1])]
    exact ⟨rfl, rfl, rfl⟩
  | some s0 =>
    cases hs0 : s0 == "" with
    | true =>
      rw [processPage_noStatus (by simp [h1, eq_of_beq hs0])]
      exact ⟨rfl, rfl, rfl⟩
    | false =>
      cases hec : getEmojiCodePoint s0 with
      | none =>
        rw [processPage_nonStd h1 hs0 hec]
        exact ⟨rfl, rfl, rfl⟩
      | some ec0 =>
        rw [processPage_dry h1 hs0 hec]
        exact ⟨rfl, rfl, rfl⟩

/-- Outside the `Object.prototype` member names the typed table
`statusEmojiMap` agrees with the full bracket-lookup semantics, so the
engine model built on it is faithful for every document whose normalized
status is not such a member name. -/
theorem statusEmojiMapJS_agrees (k : String)
    (h1 : objectProtoFnKeys.contains k = false) (h2 : ¬(k = "__proto__")) :
    statusEmojiMapJS k = Option.map JsLookup.hex (statusEmojiMap k) := by
  have h1' : k ∉ objectProtoFnKeys := by simpa using h1
  cases h : statusEmojiMap k <;> simp [statusEmojiMapJS, h, h1', h2]

theorem tallyAdd_unchanged (o : Outcome) (t : Tally) :
    (tallyAdd o t).unchanged = t.unchanged := by
  cases o <;> rfl

theorem tallyAdd_total (o : Outcome) (t : Tally) :
    (tallyAdd o t).updated + (tallyAdd o t).skipped +
      (tallyAdd o t).unchanged + (tallyAdd o t).errors =
    t.updated + t.skipped + t.unchanged + t.errors + 1 := by
  cases o <;> simp [tallyAdd] <;> omega

/-! ### Claim theorems -/

/-- C3: for one property key on one document, the reconciler issues a create
carrying the target value when no property exists and the create call's
success is the outcome; performs no write when the stored value equals the
target; fails with the missing-version-metadata outcome (issuing no write)
when the fetched version is missing or invalid; and otherwise issues exactly
one update carrying version = currentVersion + 1 together with the new
value. -/
theorem claim3_upsert_protocol (slot : PropSlot) (key value : String)
    (hl : slot.calls.listOk = true) :
    (slot.store = none →
      (upsertProp slot key value).1 = slot.calls.createOk ∧
      (upsertProp slot key value).2.1 =
        [RemoteCall.list key, RemoteCall.create key value]) ∧
    (∀ p, slot.store = some p → jsString p.value = value →
      upsertProp slot key value = (true, [RemoteCall.list key], slot)) ∧
    (∀ p, slot.store = some p → jsString p.value ≠ value →
      slot.calls.detailOk = true → p.version.getD 0 = 0 →
      (upsertProp slot key value).1 = false ∧
      (upsertProp slot key value).2.1 =
        [RemoteCall.list key, RemoteCall.detail p.id]) ∧
    (∀ p v, slot.store = some p → jsString p.value ≠ value →
      slot.calls.detailOk = true → p.version = some (v + 1) →
      (upsertProp slot key value).1 = slot.calls.updateOk ∧
      (upsertProp slot key value).2.1 =
        [RemoteCall.list key, RemoteCall.detail p.id,
         RemoteCall.update p.id key value (v + 1 + 1)]) := by
  refine ⟨?_, ?_, ?_, ?_⟩
  · intro hn
    cases hc : slot.calls.createOk <;>
      simp [upsertProp, hl, hn, hc]
  · intro p hp hv
    exact upsert_noop hl hp hv
  · intro p hp hv hd h0
    have hbe : (jsString p.value == value) = false := by
      simp [hv]
    constructor <;> simp [upsertProp, hl, hp, hbe, hd, h0]
  · intro p v hp hv hd hver
    have hbe : (jsString p.value == value) = false := by
      simp [hv]
    cases hu : slot.calls.updateOk <;>
      simp [upsertProp, hl, hp, hbe, hd, hver, hu]

/-- C3 witness: concrete create and update runs of the reconciler. -/
theorem claim3_witness :
    (upsertProp exSlotOk pubKey "2705").1 = true ∧
    (upsertProp exSlotOk pubKey "2705").2.1 =
      [RemoteCall.list pubKey, RemoteCall.create pubKey "2705"] ∧
    (upsertProp exSlotDiff pubKey "1f6ab").1 = true ∧
    (upsertProp exSlotDiff pubKey "1f6ab").2.1 =
      [RemoteCall.list pubKey, RemoteCall.detail "p1",
       RemoteCall.update "p1" pubKey "1f6ab" 4] := by
  have h := claim3_upsert_protocol exSlotOk pubKey "2705" (by decide)
  have h2 := claim3_upsert_protocol exSlotDiff pubKey "1f6ab" (by decide)
  have hc := h.1 rfl
  have hu := h2.2.2.2 ⟨"p1", some "2705", some 3⟩ 2 rfl (by decide) rfl rfl
  exact ⟨hc.1, hc.2, hu.1, hu.2⟩

/-- C5 (code bug): the claim — after trimming and case-folding each listed
synonym maps to its canonical code and every other string yields no
indicator — states the source's own documented intent ("Non-standard or
unrecognized statuses are skipped"), but the code's bracket lookup consults
`Object.prototype`: the normalized status "constructor", which has no
canonical mapping, yields the truthy inherited Object constructor, which
survives the `|| null` fallback; "__proto__" yields `Object.prototype`
itself.  The raw bracket lookup is likewise unfaithful to the table for
mixed-case member names such as "toString" and "valueOf", though the
case folding in front of it makes exactly the all-lowercase member names
"constructor" and "__proto__" reachable through the mapper.  The synonym
entries, a plain unmapped status such as "Onboarding", and the empty string
behave as claimed. -/
theorem claim5_proto_lookup_bug :
    trimJS (jsToLower "Constructor") = "constructor" ∧
    "constructor" ∉ emojiKeys ∧
    getEmojiCodePointJS "Constructor" =
      some (JsLookup.protoFn "constructor") ∧
    getEmojiCodePointJS "Constructor" ≠ none ∧
    getEmojiCodePointJS "__proto__" = some JsLookup.protoObj ∧
    statusEmojiMapJS "toString" = some (JsLookup.protoFn "toString") ∧
    statusEmojiMapJS "valueOf" = some (JsLookup.protoFn "valueOf") ∧
    getEmojiCodePointJS "toString" = none ∧
    getEmojiCodePointJS "Accepted" = some (JsLookup.hex "2705") ∧
    getEmojiCodePointJS " APPROVED " = some (JsLookup.hex "2705") ∧
    getEmojiCodePointJS "Pending Approval" = some (JsLookup.hex "23f3") ∧
    getEmojiCodePointJS "Draft" = some (JsLookup.hex "1f5d2") ∧
    getEmojiCodePointJS "Withdrawn" = some (JsLookup.hex "1f6ab") ∧
    getEmojiCodePointJS "Postponed" = some (JsLookup.hex "270b") ∧
    getEmojiCodePointJS "Onboarding" = none ∧
    getEmojiCodePointJS "" = none := by
  decide

/-- C7 (code bug): the claim's title-filter half matches the code (the
concrete reserved title is excluded, a genuine ADR title is kept), but the
skip half — "a document whose extracted status has no canonical mapping is
classified skipped with no property calls issued" — states the source's own
documented intent and the code violates it: for a collected ADR page whose
Status cell reads "Constructor" (no canonical mapping), the prototype-chain
lookup defeats the `!emojiCode` guard, `codePointToEmoji` coerces the
inherited function (whose string form starts with "function") to code point
0xF, both property create calls are issued carrying the inherited function
as value, and the document is classified updated; for status "__proto__"
the run even crashes inside `String.fromCodePoint` before any property
call; a plain unmapped status ("Onboarding") is skipped with no calls as
claimed. -/
theorem claim7_proto_escape :
    isAdrPage "ADR-004: Reserved Range" = false ∧
    isAdrPage exPageConstructor.title = true ∧
    trimJS (jsToLower "Constructor") ∉ emojiKeys ∧
    (processPageJS false exSlotOkJS exSlotOkJS exPageConstructor).outcome =
      OutcomeJS.updated (String.singleton (Char.ofNat 15)) "Constructor" ∧
    (processPageJS false exSlotOkJS exSlotOkJS exPageConstructor).calls =
      [RemoteCallJS.list pubKey,
       RemoteCallJS.create pubKey (JsLookup.protoFn "constructor"),
       RemoteCallJS.list drKey,
       RemoteCallJS.create drKey (JsLookup.protoFn "constructor")] ∧
    (processPageJS false exSlotOkJS exSlotOkJS exPageProto).outcome =
      OutcomeJS.crashed "__proto__" ∧
    (processPageJS false exSlotOkJS exSlotOkJS exPageProto).calls = [] ∧
    processPageJS false exSlotOkJS exSlotOkJS exPageOnboarding =
      ⟨OutcomeJS.skippedNonStandard "Onboarding", [], exSlotOkJS,
       exSlotOkJS⟩ := by
  decide

/-- C8: any non-success collector response aborts the whole run with an
error before any per-document result; a successful collection always yields
a completed run, the per-page loop processes the head document and still
recurses over the rest no matter how the head's property calls fail, and
every document in the processed list yields exactly one per-document result
record. -/
theorem claim8_failure_scoping :
    (∀ (dryRun : Bool) (b : Batch) rest, b.ok = false →
      syncEmojis dryRun (b :: rest) =
        Except.error (b.error.getD "Failed to search Confluence")) ∧
    (∀ (dryRun : Bool) batches envs, collect batches = Except.ok envs →
      syncEmojis dryRun batches =
        Except.ok (runSync dryRun (adrFilter envs))) ∧
    (∀ (dryRun : Bool) (e : PageEnv) rest,
      runSync dryRun (e :: rest) =
        ⟨tallyAdd (processPage dryRun e.pub e.dr e.page).outcome
           (runSync dryRun rest).tally,
         (processPage dryRun e.pub e.dr e.page).calls ++
           (runSync dryRun rest).calls,
         ⟨e.page, (processPage dryRun e.pub e.dr e.page).pub,
          (processPage dryRun e.pub e.dr e.page).dr⟩ ::
           (runSync dryRun rest).envs⟩) ∧
    (∀ (dryRun : Bool) envs, (runSync dryRun envs).envs.length = envs.length) := by
  refine ⟨?_, ?_, ?_, ?_⟩
  · intro dryRun b rest hb
    simp [syncEmojis, collect, hb]
  · intro dryRun batches envs h
    simp [syncEmojis, h]
  · intro dryRun e rest
    rfl
  · intro dryRun envs
    induction envs with
    | nil => rfl
    | cons e rest ih => simp [runSync, ih]

/-- C8 witness: a failing collector response aborts with its message; a
successful collection containing a document whose property calls all fail
still completes with a tally counting that document. -/
theorem claim8_witness :
    syncEmojis false [exBadBatch] = Except.error "boom" ∧
    syncEmojis false [exGoodBatchFail] =
      Except.ok (runSync false (adrFilter [exEnvBothFail])) ∧
    (runSync false [exEnvBothFail]).envs.length = 1 := by
  refine ⟨?_, ?_, claim8_failure_scoping.2.2.2 false [exEnvBothFail]⟩
  · exact claim8_failure_scoping.1 false exBadBatch [] rfl
  · exact claim8_failure_scoping.2.1 false [exGoodBatchFail] [exEnvBothFail] rfl

/-- C10: every processed document increments exactly one of the four tally
counters (they partition the processed documents), and the `unchanged`
counter is incremented on no code path, so it is 0 in the final tally of
any run. -/
theorem claim10_tally_partition (dryRun : Bool) (envs : List PageEnv) :
    (runSync dryRun envs).tally.unchanged = 0 ∧
    (runSync dryRun envs).tally.updated + (runSync dryRun envs).tally.skipped +
      (runSync dryRun envs).tally.unchanged +
      (runSync dryRun envs).tally.errors = envs.length := by
  induction envs with
  | nil => exact ⟨rfl, rfl⟩
  | cons e rest ih =>
    simp only [runSync]
    refine ⟨?_, ?_⟩
    · rw [tallyAdd_unchanged]
      exact ih.1
    · rw [tallyAdd_total, ih.2, List.length_cons]

/-- C9: a stored property whose detail record carries version number 0 is
treated exactly like one with no version at all — the reconciler reports
failure and attempts no update — because the source's truthiness check
`if (!currentVersion)` cannot tell 0 from undefined. -/
theorem claim9_version_zero (slot : PropSlot) (k v : String) (p : StoredProp)
    (hl : slot.calls.listOk = true) (hd : slot.calls.detailOk = true)
    (hst : slot.store = some p) (hv0 : p.version = some 0)
    (hne : jsString p.value ≠ v) :
    (upsertProp slot k v).1 = false ∧
    (upsertProp slot k v).2.1 = [RemoteCall.list k, RemoteCall.detail p.id] ∧
    (upsertProp slot k v).2.2 = slot ∧
    ((upsertProp { slot with store := some { p with version := none } } k v).1,
     (upsertProp { slot with store := some { p with version := none } } k v).2.1) =
      ((upsertProp slot k v).1, (upsertProp slot k v).2.1) := by
  have hbe : (jsString p.value == v) = false := by
    simp [hne]
  refine ⟨?_, ?_, ?_, ?_⟩ <;>
    simp [upsertProp, hl, hst, hbe, hd, hv0]

/-- C9 witness: concrete version-0 slot behaves as missing-version failure. -/
theorem claim9_witness :
    (upsertProp exSlotV0 pubKey "1f6ab").1 = false ∧
    (upsertProp exSlotV0 pubKey "1f6ab").2.1 =
      [RemoteCall.list pubKey, RemoteCall.detail "p1"] := by
  have h := claim9_version_zero exSlotV0 pubKey "1f6ab" ⟨"p1", some "2705", some 0⟩
    rfl rfl rfl rfl (by decide)
  exact ⟨h.1, h.2.1⟩

/-- C1 counterexample: in the code the Tally has no partial counter.  For a
run whose single document has one of the two property calls fail (either
order), the final tally is identical to the tally of a run whose document
has both calls fail — updated 0, skipped 0, unchanged 0, errors 1 — so at
the tally level the partial case is folded into the errors count, contrary
to the claim of a distinct partial count incrementing. -/
theorem claim1_counterexample :
    (runSync false [exEnvPartial]).tally =
      { updated := 0, skipped := 0, unchanged := 0, errors := 1 } ∧
    (runSync false [exEnvPartialSwap]).tally =
      { updated := 0, skipped := 0, unchanged := 0, errors := 1 } ∧
    (runSync false [exEnvBothFail]).tally =
      { updated := 0, skipped := 0, unchanged := 0, errors := 1 } ∧
    (runSync false [exEnvPartial]).tally = (runSync false [exEnvBothFail]).tally := by
  decide

/-- C1 (amended): when exactly one of the two property calls fails, the
document receives the distinct per-document "Partial update" classification
(distinct from both the updated and the both-failed classification), but
the tally folds it into the errors count: errors increments by exactly one,
independent of which call failed; there is no separate partial counter. -/
theorem claim1_amended (pub dr : PropSlot) (page : Page) (s ec : String)
    (hind : pageIndicator page = some (s, ec))
    (hne : (upsertProp pub pubKey ec).1 ≠ (upsertProp dr drKey ec).1) :
    (processPage false pub dr page).outcome =
      Outcome.oneFailed (upsertProp pub pubKey ec).1
        (upsertProp dr drKey ec).1 ∧
    (∀ e2 s2, (processPage false pub dr page).outcome ≠
      Outcome.updated e2 s2) ∧
    (processPage false pub dr page).outcome ≠ Outcome.failed ∧
    (∀ t, tallyAdd (processPage false pub dr page).outcome t =
      { t with errors := t.errors + 1 }) := by
  obtain ⟨h1, hs, hec⟩ := pageIndicator_some_iff.mp hind
  rw [processPage_reconcile h1 hs hec]
  cases hb1 : (upsertProp pub pubKey ec).1 <;>
    cases hb2 : (upsertProp dr drKey ec).1 <;>
    simp_all [tallyAdd]

/-- C1 amended witness: the concrete partial document is classified by the
distinct partial outcome yet tallied under errors. -/
theorem claim1_amended_witness :
    (processPage false exSlotOk exSlotCreateFail exPage).outcome =
      Outcome.oneFailed true false ∧
    tallyAdd (processPage false exSlotOk exSlotCreateFail exPage).outcome
      ⟨0, 0, 0, 0⟩ = ⟨0, 0, 0, 1⟩ := by
  have h := claim1_amended exSlotOk exSlotCreateFail exPage "Draft" "1f5d2"
    (by decide) (by decide)
  refine ⟨?_, h.2.2.2 ⟨0, 0, 0, 0⟩⟩
  have h1 := h.1
  rw [show (upsertProp exSlotOk pubKey "1f5d2").1 = true from by decide,
      show (upsertProp exSlotCreateFail drKey "1f5d2").1 = false from by decide]
    at h1
  exact h1

/-- C4: the status extractor applies its three patterns in strict order with
first match winning: a primary match yields exactly the trimmed inner text
of the value cell's first paragraph and the captured text can never cross an
embedded tag (it contains no `<`); when the primary fails and the
empty-value pattern matches, the sync path yields absent and the report path
"Unknown", never falling through to the fallback; when only the fallback
matches, the whole adjacent cell's content with all tags stripped and
trimmed is returned exactly when non-empty; otherwise the result is
absent / "Unknown". -/
theorem claim4_extract_tiers (body : String) :
    (∀ cap, findPrimary body.toList = some cap →
      extractStatusSync body = some (trimJS cap.asString) ∧
      extractStatusReport body = trimJS cap.asString ∧
      ∀ c ∈ cap, ¬(c = '<')) ∧
    (findPrimary body.toList = none → findEmpty body.toList = true →
      extractStatusSync body = none ∧ extractStatusReport body = "Unknown") ∧
    (findPrimary body.toList = none → findEmpty body.toList = false →
      ∀ inner, findFallback body.toList = some inner →
        (¬(trimJS (stripTags inner).asString = "") →
          extractStatusSync body = some (trimJS (stripTags inner).asString) ∧
          extractStatusReport body = trimJS (stripTags inner).asString) ∧
        (trimJS (stripTags inner).asString = "" →
          extractStatusSync body = none ∧
          extractStatusReport body = "Unknown")) ∧
    (findPrimary body.toList = none → findEmpty body.toList = false →
      findFallback body.toList = none →
      extractStatusSync body = none ∧ extractStatusReport body = "Unknown") := by
  refine ⟨?_, ?_, ?_, ?_⟩
  · intro cap hp
    refine ⟨?_, ?_, findPrimary_no_lt _ hp⟩ <;>
      simp only [String.toList] at hp <;>
      simp [extractStatusSync, extractStatusReport, hp]
  · intro hp he
    simp only [String.toList] at hp he
    constructor <;> simp [extractStatusSync, extractStatusReport, hp, he]
  · intro hp he inner hf
    simp only [String.toList] at hp he hf
    constructor
    · intro hne
      have hbe : (trimJS (stripTags inner).asString == "") = false := by
        simp [hne]
      constructor <;>
        simp [extractStatusSync, extractStatusReport, hp, he, hf, hbe]
    · intro heq
      constructor <;>
        simp [extractStatusSync, extractStatusReport, hp, he, hf, heq]
  · intro hp he hf
    simp only [String.toList] at hp he hf
    constructor <;> simp [extractStatusSync, extractStatusReport, hp, he, hf]

/-- C4 witness: one concrete body per tier. -/
theorem claim4_witness :
    extractStatusSync exPrimaryBody = some "Draft" ∧
    extractStatusSync exEmptyBody = none ∧
    extractStatusReport exEmptyBody = "Unknown" ∧
    extractStatusSync exFallbackBody = some "Proposed" := by
  have h1 := (claim4_extract_tiers exPrimaryBody).1 "Draft".toList (by decide)
  have h2 := (claim4_extract_tiers exEmptyBody).2.1 (by decide) (by decide)
  have h3 := ((claim4_extract_tiers exFallbackBody).2.2.1 (by decide)
    (by decide) "<p><em>Proposed</em></p>".toList (by decide)).1 (by decide)
  refine ⟨?_, h2.1, h2.2, ?_⟩
  · have hx := h1.1
    rw [show trimJS (List.asString "Draft".toList) = "Draft" from by decide]
      at hx
    exact hx
  · have hx := h3.1
    rw [show trimJS (stripTags "<p><em>Proposed</em></p>".toList).asString =
        "Proposed" from by decide] at hx
    exact hx

/-- C6: with dry-run enabled, no property call at all is issued for any
document and the property slots are untouched; the status and symbol
reported under dry-run are exactly the (status, emoji) pair the pipeline
computes from the markup, and any updated report of a non-dry-run pass on
the same markup carries that identical pair; on the skip paths the two modes
classify identically. -/
theorem claim6_dry_run (pub dr : PropSlot) (page : Page) :
    (processPage true pub dr page).calls = [] ∧
    (processPage true pub dr page).pub = pub ∧
    (processPage true pub dr page).dr = dr ∧
    (∀ s ec, pageIndicator page = some (s, ec) →
      (processPage true pub dr page).outcome =
        Outcome.updated (codePointToEmoji ec) s ∧
      ∀ e2 s2, (processPage false pub dr page).outcome =
          Outcome.updated e2 s2 →
        e2 = codePointToEmoji ec ∧ s2 = s) ∧
    (pageIndicator page = none →
      (processPage true pub dr page).outcome =
        (processPage false pub dr page).outcome) := by
  obtain ⟨hc, hp, hd⟩ := processPage_dry_inert pub dr page
  refine ⟨hc, hp, hd, ?_, ?_⟩
  · intro s ec hind
    obtain ⟨h1, hs, hec⟩ := pageIndicator_some_iff.mp hind
    refine ⟨by rw [processPage_dry h1 hs hec], ?_⟩
    intro e2 s2 hw
    obtain ⟨ec2, h1', hs', hec', he', _, _, _, _⟩ := processPage_updated_inv hw
    rw [h1] at h1'
    injection h1' with h1'
    subst h1'
    rw [hec] at hec'
    injection hec' with hec'
    subst hec'
    exact ⟨he', rfl⟩
  · intro h
    rcases pageIndicator_none_inv h with hempty | ⟨s, h1, hs, hn⟩
    · rw [processPage_noStatus hempty, processPage_noStatus hempty]
    · rw [processPage_nonStd h1 hs hn, processPage_nonStd h1 hs hn]

/-- C6 witness: the dry-run pass on the concrete Draft document issues no
calls and reports the same pair a wet pass computes. -/
theorem claim6_witness :
    (processPage true exSlotOk exSlotCreateFail exPage).calls = [] ∧
    (processPage true exSlotOk exSlotCreateFail exPage).pub = exSlotOk ∧
    (processPage true exSlotOk exSlotCreateFail exPage).outcome =
      Outcome.updated (codePointToEmoji "1f5d2") "Draft" := by
  have h := claim6_dry_run exSlotOk exSlotCreateFail exPage
  exact ⟨h.1, h.2.1, (h.2.2.2.1 "Draft" "1f5d2" (by decide)).1⟩

end AdrSkills
